import Mathlib

/-!
Verification of the activity-aggregation and friends-presence core of the
devsocial backend. The definitions below are a shallow embedding of the
TypeScript source (src/types.ts, embedded PostgresDatabase class, and the
sync route of src/server.ts). JSON object maps from project or language
name to seconds are embedded as association lists in insertion order,
matching JS object key order; machine timestamps are integers
(milliseconds); calendar dates are embedded as UTC day indices.
-/

namespace DevSocial

/-! ## Association-list maps (JS objects keyed by insertion order) -/

/-- Lookup of a key in an association list: first matching entry, like a
JS object property read. -/
def alookup {α β : Type} [DecidableEq α] : List (α × β) → α → Option β
  | [], _ => none
  | (k, v) :: rest, key => if k = key then some v else alookup rest key

/-- Assignment of a key in an association list: updates the first matching
entry in place, or appends the new key at the end, exactly like JS object
assignment preserves insertion order. -/
def aset {α β : Type} [DecidableEq α] : List (α × β) → α → β → List (α × β)
  | [], key, val => [(key, val)]
  | (k, v) :: rest, key, val =>
      if k = key then (key, val) :: rest else (k, v) :: aset rest key val

/-- A JS object mapping names to seconds. -/
abbrev SMap := List (String × Int)

/-- Read with default 0, as in the source pattern obj\x5bk\x5d or 0. -/
def lookupD (m : SMap) (k : String) : Int :=
  (alookup m k).getD 0

/-- The merge loop of updateActivity: for every entry of the incoming map,
add its seconds to the accumulated value for that key, creating the key if
absent. Mirrors the for-of loop over the incoming Map. -/
def mergeAdd (existing incoming : SMap) : SMap :=
  incoming.foldl (fun acc kv => aset acc kv.1 (lookupD acc kv.1 + kv.2)) existing

/-! ## Daily and hourly aggregates (tables daily_activities, hourly_activities) -/

/-- Value part of a daily_activities row; the key (userId, date) is kept
outside. Fields mirror total_seconds, projects, languages, last_update. -/
structure DailyActivity where
  totalSeconds : Int
  projects : SMap
  languages : SMap
  lastUpdate : Int
deriving DecidableEq, Repr

/-- Value part of an hourly_activities row; the key (userId, date, hour) is
kept outside. -/
structure HourlyActivity where
  totalSeconds : Int
  projects : SMap
  languages : SMap
deriving DecidableEq, Repr

/-- One incoming activity report, as passed to updateActivity: reported
totalSeconds, the incoming project and language maps, and the wall-clock
time of the call. -/
structure MergeIn where
  totalSeconds : Int
  projects : SMap
  languages : SMap
  now : Int
deriving DecidableEq, Repr

/-- Daily half of updateActivity: when no row exists for (user, today) the
incoming report becomes the row; otherwise totals add and the maps merge
key-wise, and last_update is set to now. -/
def mergeDaily (existing : Option DailyActivity) (totalSeconds : Int)
    (projects languages : SMap) (now : Int) : DailyActivity :=
  match existing with
  | none => ⟨totalSeconds, projects, languages, now⟩
  | some row =>
      ⟨row.totalSeconds + totalSeconds,
       mergeAdd row.projects projects,
       mergeAdd row.languages languages,
       now⟩

/-- A sequence of calls to updateActivity against the same (user, date)
row, applied in order. -/
def applyMerges (s : Option DailyActivity) (ms : List MergeIn) : Option DailyActivity :=
  ms.foldl (fun acc m => some (mergeDaily acc m.totalSeconds m.projects m.languages m.now)) s

/-- Total seconds stored for a possibly-absent aggregate row. -/
def totalOf : Option DailyActivity → Int
  | none => 0
  | some a => a.totalSeconds

/-- Projects map of a possibly-absent daily row. -/
def dailyProjectsOf : Option DailyActivity → SMap
  | none => []
  | some a => a.projects

/-- Languages map of a possibly-absent daily row. -/
def dailyLanguagesOf : Option DailyActivity → SMap
  | none => []
  | some a => a.languages

/-- Hourly half of the merge, identical to the daily one except that
hourly rows carry no last_update column. -/
def mergeHourly (existing : Option HourlyActivity) (totalSeconds : Int)
    (projects languages : SMap) : HourlyActivity :=
  match existing with
  | none => ⟨totalSeconds, projects, languages⟩
  | some row =>
      ⟨row.totalSeconds + totalSeconds,
       mergeAdd row.projects projects,
       mergeAdd row.languages languages⟩

/-- Total seconds stored for a possibly-absent hourly row. -/
def hourlyTotalOf : Option HourlyActivity → Int
  | none => 0
  | some a => a.totalSeconds

/-- Projects map of a possibly-absent hourly row. -/
def hourlyProjectsOf : Option HourlyActivity → SMap
  | none => []
  | some a => a.projects

/-- Languages map of a possibly-absent hourly row. -/
def hourlyLanguagesOf : Option HourlyActivity → SMap
  | none => []
  | some a => a.languages

/-- getUTCHours of an epoch-milliseconds timestamp. -/
def utcHourOf (now : Int) : Int :=
  (now / 3600000) % 24

/-- updateHourlyActivity: upserts the bucket keyed by the current UTC hour
at merge time, applying the identical merge to it. The per-(user, date)
store is embedded as an association list keyed by hour. -/
def updateHourlyActivity (store : List (Int × HourlyActivity)) (totalSeconds : Int)
    (projects languages : SMap) (now : Int) : List (Int × HourlyActivity) :=
  let hour := utcHourOf now
  aset store hour (mergeHourly (alookup store hour) totalSeconds projects languages)

/-- updateActivity: merges the report into the daily row for (user, today)
and, only when totalSeconds is positive, also into the hourly bucket of
the current UTC hour. Returns the new daily row and hourly store. -/
def updateActivity (daily : Option DailyActivity) (store : List (Int × HourlyActivity))
    (totalSeconds : Int) (projects languages : SMap) (now : Int) :
    Option DailyActivity × List (Int × HourlyActivity) :=
  (some (mergeDaily daily totalSeconds projects languages now),
   if 0 < totalSeconds then updateHourlyActivity store totalSeconds projects languages now
   else store)

/-! ## Presence classification (getFriendsActivity) -/

inductive Status where
  | online
  | idle
  | offline
deriving DecidableEq, Repr

/-- Two minutes, in milliseconds. -/
def idleThreshold : Int := 2 * 60 * 1000

/-- Five minutes, in milliseconds. -/
def offlineThreshold : Int := 5 * 60 * 1000

/-- The status computation of getFriendsActivity. lastUpdate falls back to
0 when the left join brought no row; the online and idle branches both
require row.total_seconds to be truthy, i.e. present and nonzero. -/
def classify (agg : Option DailyActivity) (now : Int) : Status :=
  let lastUpdate : Int := match agg with | none => 0 | some a => a.lastUpdate
  let timeSinceActive := now - lastUpdate
  let totalTruthy : Bool := match agg with | none => false | some a => decide (a.totalSeconds ≠ 0)
  if totalTruthy && decide (timeSinceActive < idleThreshold) then Status.online
  else if totalTruthy && decide (timeSinceActive < offlineThreshold) then Status.idle
  else Status.offline

/-- One row of the friendships-users-daily_activities join, with the
sharing settings already merged over their defaults (the source spreads
defaultSettings under row.settings). -/
structure FriendRow where
  id : String
  username : String
  avatarUrl : Option String
  shareActivity : Bool
  shareProjectName : Bool
  shareLanguage : Bool
  activity : Option DailyActivity
deriving DecidableEq, Repr

/-- One element of the friends activity feed. -/
structure FriendActivityView where
  id : String
  username : String
  avatarUrl : Option String
  currentProject : Option String
  currentLanguage : Option String
  activeSeconds : Int
  lastActive : Int
  status : Status
deriving DecidableEq, Repr

/-- The max-seconds scan of getFriendsActivity: walks the entries keeping
the first entry strictly greater than the running maximum, which starts
at 0. -/
def topEntryGo : List (String × Int) → Int → Option String → Option String
  | [], _, cur => cur
  | (k, v) :: rest, maxSeconds, cur =>
      if maxSeconds < v then topEntryGo rest v (some k) else topEntryGo rest maxSeconds cur

/-- Name of the entry with the highest seconds, none when every entry is
at most 0 or the map is empty. -/
def topEntry (m : SMap) : Option String :=
  topEntryGo m 0 none

/-- Per-row body of getFriendsActivity. A friend with shareActivity set to
false gets the minimal blanked record; otherwise status is classified from
the joined daily row and the top project and language are surfaced
whenever the respective share setting is on and a daily row exists. -/
def buildFriendView (row : FriendRow) (now : Int) : FriendActivityView :=
  if row.shareActivity = false then
    ⟨row.id, row.username, row.avatarUrl, none, none, 0, 0, Status.offline⟩
  else
    let lastUpdate : Int := match row.activity with | none => 0 | some a => a.lastUpdate
    let stat := classify row.activity now
    let currentProject : Option String :=
      if row.shareProjectName then
        match row.activity with | some a => topEntry a.projects | none => none
      else none
    let currentLanguage : Option String :=
      if row.shareLanguage then
        match row.activity with | some a => topEntry a.languages | none => none
      else none
    let activeSeconds : Int := match row.activity with | none => 0 | some a => a.totalSeconds
    ⟨row.id, row.username, row.avatarUrl, currentProject, currentLanguage,
     activeSeconds, lastUpdate, stat⟩

/-- Display rank used by the final sort: online first, then idle, then
offline. -/
def statusOrder : Status → Int
  | Status.online => 0
  | Status.idle => 1
  | Status.offline => 2

/-- Comparator of the final sort: ascending status rank, then descending
active seconds. -/
def feedBefore (a b : FriendActivityView) : Bool :=
  if statusOrder a.status = statusOrder b.status then b.activeSeconds ≤ a.activeSeconds
  else statusOrder a.status < statusOrder b.status

def insertFeed (x : FriendActivityView) : List FriendActivityView → List FriendActivityView
  | [] => [x]
  | y :: ys => if feedBefore x y then x :: y :: ys else y :: insertFeed x ys

/-- getFriendsActivity: builds one view per joined friend row and sorts by
status rank then active seconds. -/
def getFriendsActivity (rows : List FriendRow) (now : Int) : List FriendActivityView :=
  (rows.map (fun r => buildFriendView r now)).foldr insertFeed []

/-! ## Friend requests and friendships -/

inductive ReqStatus where
  | pending
  | accepted
  | rejected
deriving DecidableEq, Repr

structure FriendRequest where
  id : String
  fromUserId : String
  toUserId : String
  status : ReqStatus
  createdAt : Int
  respondedAt : Option Int
deriving DecidableEq, Repr

/-- The friendship-graph part of the database: the friend_requests table in
insertion order and the friendships table as a list of directed edges.
Edge creation timestamps are omitted; the table primary key is the pair. -/
structure FriendState where
  requests : List FriendRequest
  friendships : List (String × String)
deriving DecidableEq, Repr

/-- Error kinds thrown by the friendship operations. -/
inductive DbError where
  | notFound
  | forbidden
  | conflict
  | invalidOperation
deriving DecidableEq, Repr

/-- Insert of one directed friendship row with on-conflict-do-nothing. -/
def insertEdge (edges : List (String × String)) (e : String × String) :
    List (String × String) :=
  if e ∈ edges then edges else e :: edges

/-- sendFriendRequest. The target username has already been resolved to
toUserId by getUserByUsername; a missing target fails with notFound before
this point and changes nothing. The final guard embeds the primary-key
uniqueness of the request id (a fresh uuid in the source). -/
def sendFriendRequest (s : FriendState) (fromUserId toUserId : String)
    (requestId : String) (now : Int) : Except DbError FriendState :=
  if fromUserId = toUserId then Except.error DbError.invalidOperation
  else if (fromUserId, toUserId) ∈ s.friendships then Except.error DbError.conflict
  else if s.requests.any (fun r =>
      (decide ((r.fromUserId = fromUserId ∧ r.toUserId = toUserId) ∨
               (r.fromUserId = toUserId ∧ r.toUserId = fromUserId))) &&
      decide (r.status = ReqStatus.pending)) then
    Except.error DbError.conflict
  else if s.requests.any (fun r => decide (r.id = requestId)) then
    Except.error DbError.conflict
  else
    Except.ok { s with
      requests := s.requests ++ [⟨requestId, fromUserId, toUserId, ReqStatus.pending, now, none⟩] }

/-- acceptFriendRequest: looks the request up by id, checks the acting
user is the addressee and the request is still pending, then in one
transaction marks it accepted and inserts both directed friendship rows. -/
def acceptFriendRequest (s : FriendState) (requestId userId : String) (now : Int) :
    Except DbError FriendState :=
  match s.requests.find? (fun r => decide (r.id = requestId)) with
  | none => Except.error DbError.notFound
  | some request =>
      if request.toUserId ≠ userId then Except.error DbError.forbidden
      else if request.status ≠ ReqStatus.pending then Except.error DbError.conflict
      else Except.ok
        { requests := s.requests.map (fun r =>
            if r.id = requestId then
              { r with status := ReqStatus.accepted, respondedAt := some now }
            else r),
          friendships :=
            insertEdge (insertEdge s.friendships
              (request.fromUserId, request.toUserId))
              (request.toUserId, request.fromUserId) }

/-- rejectFriendRequest of the PostgresDatabase class: looks the request up
by id and checks the acting user, then sets status and responded_at
unconditionally. Unlike acceptFriendRequest, the source has no guard on
the current status. -/
def rejectFriendRequest (s : FriendState) (requestId userId : String) (now : Int) :
    Except DbError FriendState :=
  match s.requests.find? (fun r => decide (r.id = requestId)) with
  | none => Except.error DbError.notFound
  | some request =>
      if request.toUserId ≠ userId then Except.error DbError.forbidden
      else Except.ok
        { s with requests := s.requests.map (fun r =>
            if r.id = requestId then
              { r with status := ReqStatus.rejected, respondedAt := some now }
            else r) }

/-- removeFriend: one delete statement covering both directions; deleting
edges that do not exist is not an error. -/
def removeFriend (s : FriendState) (userId friendId : String) : FriendState :=
  { s with friendships := s.friendships.filter (fun e =>
      decide (¬(e = (userId, friendId) ∨ e = (friendId, userId)))) }

/-- States of the friendship graph reachable from the empty database by
the four operations; failing calls leave the state unchanged. -/
inductive Reachable : FriendState → Prop where
  | init : Reachable ⟨[], []⟩
  | send {s s' : FriendState} {f t rid : String} {now : Int} :
      Reachable s → sendFriendRequest s f t rid now = Except.ok s' → Reachable s'
  | accept {s s' : FriendState} {rid uid : String} {now : Int} :
      Reachable s → acceptFriendRequest s rid uid now = Except.ok s' → Reachable s'
  | reject {s s' : FriendState} {rid uid : String} {now : Int} :
      Reachable s → rejectFriendRequest s rid uid now = Except.ok s' → Reachable s'
  | remove {s : FriendState} {u f : String} :
      Reachable s → Reachable (removeFriend s u f)

/-- Graph invariant: the edge relation is symmetric, has no self-edges,
and every stored request relates two distinct users. -/
def GraphInv (s : FriendState) : Prop :=
  (∀ a b : String, (a, b) ∈ s.friendships ↔ (b, a) ∈ s.friendships) ∧
  (∀ a : String, (a, a) ∉ s.friendships) ∧
  (∀ r ∈ s.requests, r.fromUserId ≠ r.toUserId)

/-! ## Sync-route validation (POST /api/activity/sync) -/

/-- A JS number at the granularity the validation and addition need. -/
inductive JSNum where
  | finite (v : Int)
  | nan
  | posInf
  | negInf
deriving DecidableEq, Repr

/-- The totalActiveSeconds field of an incoming summary: a number, absent,
or present with a non-number type. -/
inductive SyncField where
  | num (v : JSNum)
  | missing
  | nonNumber
deriving DecidableEq, Repr

/-- The route rejects with 400 exactly when the field is not of number
type. -/
inductive SyncError where
  | invalidDataFormat
deriving DecidableEq, Repr

/-- JS floating-point addition at the JSNum granularity. -/
def jsAdd : JSNum → JSNum → JSNum
  | JSNum.nan, _ => JSNum.nan
  | _, JSNum.nan => JSNum.nan
  | JSNum.posInf, JSNum.negInf => JSNum.nan
  | JSNum.negInf, JSNum.posInf => JSNum.nan
  | JSNum.posInf, _ => JSNum.posInf
  | _, JSNum.posInf => JSNum.posInf
  | JSNum.negInf, _ => JSNum.negInf
  | _, JSNum.negInf => JSNum.negInf
  | JSNum.finite a, JSNum.finite b => JSNum.finite (a + b)

/-- Total-seconds effect of updateActivity on the (user, today) row, over
JS number semantics: a fresh row stores the reported value, an existing
row adds it. -/
def applyReportedSeconds (existing : Option JSNum) (v : JSNum) : Option JSNum :=
  match existing with
  | none => some v
  | some t => some (jsAdd t v)

/-- The sync route around updateActivity, restricted to the validated
field and the total it feeds: a non-number field is answered with 400
before any database call, any number is passed to updateActivity.
Returns the response error, if any, and the stored total afterwards. -/
def syncHandler (field : SyncField) (total : Option JSNum) :
    Option SyncError × Option JSNum :=
  match field with
  | SyncField.num v => (none, applyReportedSeconds total v)
  | _ => (some SyncError.invalidDataFormat, total)

/-! ## Achievements (checkAndUnlockAchievements) -/

/-- One row of the achievements catalog. -/
structure Achievement where
  id : String
  name : String
  category : String
  thresholdType : String
  thresholdValue : Int
deriving DecidableEq, Repr

/-- The slice of a user row the evaluator reads: the friend list from the
friendships table. -/
structure UserInfo where
  friends : List String
deriving DecidableEq, Repr

/-- One daily_activities row as the evaluator reads it; the calendar date
string is embedded as a UTC day index. -/
structure DailyRec where
  date : Nat
  totalSeconds : Int
  languages : SMap
deriving DecidableEq, Repr

/-- One hourly_activities row as the evaluator reads it. -/
structure HourlyRec where
  date : Nat
  hour : Int
  totalSeconds : Int
deriving DecidableEq, Repr

/-- Everything the measures are computed from; today is the current UTC
day index. -/
structure ActivityData where
  dailies : List DailyRec
  hourlies : List HourlyRec
  today : Nat
deriving DecidableEq, Repr

/-- getDay of a UTC day index: day 0 (1970-01-01) was a Thursday. -/
def dayOfWeek (d : Nat) : Nat :=
  (d + 4) % 7

def sumDailySeconds (rs : List DailyRec) : Int :=
  (rs.map DailyRec.totalSeconds).sum

/-- Insertion into a descending-sorted list, used to embed the
order-by-date-desc of the streak query. -/
def insertDesc (x : Nat) : List Nat → List Nat
  | [] => [x]
  | y :: ys => if y < x then x :: y :: ys else y :: insertDesc x ys

def sortDesc (l : List Nat) : List Nat :=
  l.foldr insertDesc []

/-- The streak loop: walks the distinct active dates in descending order,
counting while each equals the expected date and stepping the expectation
back one day, stopping at the first gap. -/
def streakWalk : List Nat → Nat → Nat
  | [], _ => 0
  | d :: rest, expected =>
      if d = expected then streakWalk rest (expected - 1) + 1 else 0

def streakDays (d : ActivityData) : Nat :=
  streakWalk (sortDesc (((d.dailies.filter (fun r => 0 < r.totalSeconds)).map DailyRec.date).dedup)) d.today

/-- Key-set union loop of the language_count case. -/
def unionKeys (acc : List String) (m : SMap) : List String :=
  m.foldl (fun acc2 kv => if kv.1 ∈ acc2 then acc2 else acc2 ++ [kv.1]) acc

def distinctLanguageCount (rs : List DailyRec) : Nat :=
  (rs.foldl (fun acc r => unionKeys acc r.languages) []).length

/-- The switch of checkAndUnlockAchievements deciding whether one
achievement threshold is met; unknown threshold types earn nothing. -/
def earned (u : UserInfo) (d : ActivityData) (a : Achievement) : Bool :=
  match a.thresholdType with
  | "total_hours" => decide ((a.thresholdValue : ℚ) ≤ (sumDailySeconds d.dailies : ℚ) / 3600)
  | "streak_days" => decide (a.thresholdValue ≤ (streakDays d : Int))
  | "language_count" => decide (a.thresholdValue ≤ (distinctLanguageCount d.dailies : Int))
  | "friend_count" => decide (a.thresholdValue ≤ (u.friends.length : Int))
  | "night_coding" => d.hourlies.any (fun h =>
      decide (0 ≤ h.hour) && decide (h.hour < 5) && decide (0 < h.totalSeconds))
  | "early_coding" => d.hourlies.any (fun h =>
      decide (5 ≤ h.hour) && decide (h.hour < 7) && decide (0 < h.totalSeconds))
  | "daily_hours" => d.dailies.any (fun r => decide (a.thresholdValue * 3600 ≤ r.totalSeconds))
  | "weekend_coding" =>
      (d.dailies.any (fun r => decide (dayOfWeek r.date = 6) && decide (0 < r.totalSeconds))) &&
      (d.dailies.any (fun r => decide (dayOfWeek r.date = 0) && decide (0 < r.totalSeconds)))
  | _ => false

/-- The catalog loop: skips achievements whose id is already in the
unlocked set (read once, before the loop) and emits every remaining one
whose threshold is met. -/
def checkLoop (u : UserInfo) (d : ActivityData) :
    List Achievement → List String → List Achievement
  | [], _ => []
  | a :: rest, unlocked =>
      if a.id ∈ unlocked then checkLoop u d rest unlocked
      else if earned u d a then a :: checkLoop u d rest unlocked
      else checkLoop u d rest unlocked

/-- checkAndUnlockAchievements: a missing user returns the empty list at
once; otherwise the catalog loop runs against the unlocked-id set. -/
def checkAndUnlockAchievements (user : Option UserInfo) (d : ActivityData)
    (catalog : List Achievement) (unlocked : List String) : List Achievement :=
  match user with
  | none => []
  | some u => checkLoop u d catalog unlocked

/-- users table lookup by id. -/
def getUserById (users : List (String × UserInfo)) (id : String) : Option UserInfo :=
  alookup users id

/-- One full evaluation call: the emitted list together with the
user_achievements table afterwards (each emitted id inserted with
on-conflict-do-nothing). -/
def runEvaluate (user : Option UserInfo) (d : ActivityData)
    (catalog : List Achievement) (unlocked : List String) :
    List Achievement × List String :=
  let newly := checkAndUnlockAchievements user d catalog unlocked
  (newly, unlocked ++ newly.map Achievement.id)

/-! ## Concrete inputs used by scenario parts, counterexamples and
witnesses -/

/-- First merge of the two-merge scenario. -/
def mergeA : MergeIn := ⟨3600, [("app", 3600)], [("go", 3600)], 1000⟩

/-- Second merge of the two-merge scenario. -/
def mergeB : MergeIn := ⟨1800, [("app", 1800)], [("rust", 1800)], 2000⟩

/-- A state holding a single already-accepted request from A to B and the
two edges its acceptance created. -/
def stateAccepted : FriendState :=
  ⟨[⟨"r1", "A", "B", ReqStatus.accepted, 10, some 100⟩],
   [("A", "B"), ("B", "A")]⟩

/-- A friend row sharing everything, with a today aggregate whose last
update lies far in the past. -/
def rowStale : FriendRow :=
  ⟨"f1", "bob", none, true, true, true,
   some ⟨100, [("app", 100)], [("go", 100)], 0⟩⟩

/-! ## Lemmas on association-list maps -/

theorem alookup_aset_self {α β : Type} [DecidableEq α] :
    ∀ (m : List (α × β)) (k : α) (v : β), alookup (aset m k v) k = some v
  | [], k, v => by simp [aset, alookup]
  | (k', v') :: rest, k, v => by
      by_cases h : k' = k
      · simp [aset, h, alookup]
      · simp [aset, h, alookup, alookup_aset_self rest k v]

theorem alookup_aset_ne {α β : Type} [DecidableEq α] :
    ∀ (m : List (α × β)) (k key : α) (v : β), k ≠ key →
      alookup (aset m k v) key = alookup m key
  | [], k, key, v, h => by simp [aset, alookup, h]
  | (k', v') :: rest, k, key, v, h => by
      by_cases h' : k' = k
      · subst h'
        simp [aset, alookup, h]
      · simp only [aset, if_neg h', alookup]
        by_cases h'' : k' = key
        · simp [h'']
        · simp [h'', alookup_aset_ne rest k key v h]

theorem lookupD_aset_self (m : SMap) (k : String) (v : Int) :
    lookupD (aset m k v) k = v := by
  simp [lookupD, alookup_aset_self]

theorem lookupD_aset_ne (m : SMap) (k key : String) (v : Int) (h : k ≠ key) :
    lookupD (aset m k v) key = lookupD m key := by
  simp [lookupD, alookup_aset_ne m k key v h]

theorem lookupD_mergeAdd_notMem :
    ∀ (inc e : SMap) (k : String), k ∉ inc.map Prod.fst →
      lookupD (mergeAdd e inc) k = lookupD e k
  | [], e, k, _ => rfl
  | (k0, v0) :: rest, e, k, h => by
      have hne : k0 ≠ k := fun hc => h (by simp [hc])
      have hrest : k ∉ rest.map Prod.fst := fun hc => h (by simp [hc])
      show lookupD (mergeAdd (aset e k0 (lookupD e k0 + v0)) rest) k = lookupD e k
      rw [lookupD_mergeAdd_notMem rest _ k hrest,
        lookupD_aset_ne _ k0 k _ hne]

/-- Key-wise accumulation of the merge loop: the merged value of every key
is the existing value plus the incoming value, the absent cases reading
as 0. -/
theorem lookupD_mergeAdd :
    ∀ (inc e : SMap) (k : String), (inc.map Prod.fst).Nodup →
      lookupD (mergeAdd e inc) k = lookupD e k + lookupD inc k
  | [], e, k, _ => by simp [mergeAdd, lookupD, alookup]
  | (k0, v0) :: rest, e, k, hnd => by
      have hnd' : (k0 :: rest.map Prod.fst).Nodup := by simpa using hnd
      have hk0 : k0 ∉ rest.map Prod.fst := (List.nodup_cons.mp hnd').1
      have hrest : (rest.map Prod.fst).Nodup := (List.nodup_cons.mp hnd').2
      show lookupD (mergeAdd (aset e k0 (lookupD e k0 + v0)) rest) k =
        lookupD e k + lookupD ((k0, v0) :: rest) k
      by_cases hkk : k = k0
      · subst hkk
        rw [lookupD_mergeAdd_notMem rest _ k hk0, lookupD_aset_self]
        simp [lookupD, alookup]
      · rw [lookupD_mergeAdd rest _ k hrest,
          lookupD_aset_ne _ k0 k _ (Ne.symm hkk)]
        simp [lookupD, alookup, Ne.symm hkk]

/-- Running total of a merge sequence: each merge adds exactly its
reported seconds. -/
theorem totalOf_applyMerges :
    ∀ (ms : List MergeIn) (s : Option DailyActivity),
      totalOf (applyMerges s ms) = totalOf s + (ms.map MergeIn.totalSeconds).sum
  | [], s => by simp [applyMerges]
  | m :: rest, s => by
      have hstep : totalOf (some (mergeDaily s m.totalSeconds m.projects m.languages m.now)) =
          totalOf s + m.totalSeconds := by
        cases s <;> simp [totalOf, mergeDaily]
      show totalOf (applyMerges (some (mergeDaily s m.totalSeconds m.projects m.languages m.now)) rest) = _
      rw [totalOf_applyMerges rest _, hstep]
      simp [add_assoc]

/-- Claim C1: across any sequence of merges into the same (userId, date)
daily aggregate, the resulting totalActiveSeconds is the sum of the
reported deltas; each incoming project or language entry is added onto
the accumulated value for its key, created at 0 when absent and never
replaced; and the two-merge scenario of 3600 then 1800 seconds on the
app project yields the aggregate with total 5400, app at 5400, go at
3600 and rust at 1800. -/
theorem C1_daily_merge_accumulates (ms : List MergeIn) (e inc : SMap) (k : String)
    (hk : (inc.map Prod.fst).Nodup) :
    totalOf (applyMerges none ms) = (ms.map MergeIn.totalSeconds).sum
  ∧ lookupD (mergeAdd e inc) k = lookupD e k + lookupD inc k
  ∧ applyMerges none [mergeA, mergeB] =
      some ⟨5400, [("app", 5400)], [("go", 3600), ("rust", 1800)], 2000⟩ := by
  refine ⟨?_, lookupD_mergeAdd inc e k hk, by decide⟩
  simpa [totalOf] using totalOf_applyMerges ms none

/-- Witness for C1 at the concrete scenario inputs. -/
theorem C1_daily_merge_accumulates_witness :
    totalOf (applyMerges none [mergeA, mergeB]) =
        ([mergeA, mergeB].map MergeIn.totalSeconds).sum
  ∧ lookupD (mergeAdd [("app", 3600)] [("app", 1800)]) "app" =
        lookupD [("app", 3600)] "app" + lookupD [("app", 1800)] "app"
  ∧ applyMerges none [mergeA, mergeB] =
      some ⟨5400, [("app", 5400)], [("go", 3600), ("rust", 1800)], 2000⟩ :=
  C1_daily_merge_accumulates [mergeA, mergeB] [("app", 3600)] [("app", 1800)] "app"
    (by decide)

/-- Claim C4, counterexample: a friend can have an aggregate for today
whose last update is this very instant and still be classified offline,
because the online and idle branches also require a nonzero
total_seconds. The claimed rule would classify this input online. -/
theorem C4_presence_counterexample :
    classify (some ⟨0, [], [], 500⟩) 500 = Status.offline
  ∧ classify (some ⟨0, [], [], 500⟩) 500 ≠ Status.online
  ∧ (500 - 500 : Int) < idleThreshold := by
  refine ⟨by decide, by decide, by decide⟩

/-- Claim C4 as amended: for a friend whose today aggregate has nonzero
totalActiveSeconds, the status is online iff now minus lastUpdate is
under two minutes, idle iff it is at least two and under five minutes,
and offline otherwise; both comparisons are strict. A missing aggregate,
and also an aggregate whose total is zero, classify offline regardless of
recency. The 119s, 121s and 301s instances classify online, idle and
offline. -/
theorem C4_presence_classification (a : DailyActivity) (now : Int)
    (h : a.totalSeconds ≠ 0) :
    (classify (some a) now = Status.online ↔ now - a.lastUpdate < idleThreshold)
  ∧ (classify (some a) now = Status.idle ↔
      (idleThreshold ≤ now - a.lastUpdate ∧ now - a.lastUpdate < offlineThreshold))
  ∧ (classify (some a) now = Status.offline ↔ offlineThreshold ≤ now - a.lastUpdate)
  ∧ classify none now = Status.offline
  ∧ (∀ z : DailyActivity, z.totalSeconds = 0 → classify (some z) now = Status.offline)
  ∧ classify (some ⟨3600, [], [], now - 119000⟩) now = Status.online
  ∧ classify (some ⟨3600, [], [], now - 121000⟩) now = Status.idle
  ∧ classify (some ⟨3600, [], [], now - 301000⟩) now = Status.offline := by
  have hc : classify (some a) now =
      (if now - a.lastUpdate < idleThreshold then Status.online
       else if now - a.lastUpdate < offlineThreshold then Status.idle
       else Status.offline) := by
    simp [classify, h]
  refine ⟨?_, ?_, ?_, by simp [classify], ?_, ?_, ?_, ?_⟩
  · rw [hc]
    split_ifs with h1 h2 <;>
      simp_all [idleThreshold, offlineThreshold]
  · rw [hc]
    split_ifs with h1 h2 <;>
      simp_all [idleThreshold, offlineThreshold]
  · rw [hc]
    split_ifs with h1 h2 <;>
      simp_all [idleThreshold, offlineThreshold]
    omega
  · intro z hz
    simp [classify, hz]
  · have harith : now - (now - 119000) = 119000 := by ring
    simp [classify, harith, idleThreshold]
  · have harith : now - (now - 121000) = 121000 := by ring
    simp [classify, harith, idleThreshold, offlineThreshold]
  · have harith : now - (now - 301000) = 301000 := by ring
    simp [classify, harith, idleThreshold, offlineThreshold]

/-- Witness for C4 at a nonzero aggregate updated at time 0, read at
time 0. -/
theorem C4_presence_classification_witness :
    (classify (some ⟨3600, [], [], 0⟩) 0 = Status.online ↔
        (0 : Int) - (DailyActivity.mk 3600 [] [] 0).lastUpdate < idleThreshold)
  ∧ (classify (some ⟨3600, [], [], 0⟩) 0 = Status.idle ↔
      (idleThreshold ≤ (0 : Int) - (DailyActivity.mk 3600 [] [] 0).lastUpdate ∧
       (0 : Int) - (DailyActivity.mk 3600 [] [] 0).lastUpdate < offlineThreshold))
  ∧ (classify (some ⟨3600, [], [], 0⟩) 0 = Status.offline ↔
      offlineThreshold ≤ (0 : Int) - (DailyActivity.mk 3600 [] [] 0).lastUpdate)
  ∧ classify none 0 = Status.offline
  ∧ (∀ z : DailyActivity, z.totalSeconds = 0 → classify (some z) 0 = Status.offline)
  ∧ classify (some ⟨3600, [], [], 0 - 119000⟩) 0 = Status.online
  ∧ classify (some ⟨3600, [], [], 0 - 121000⟩) 0 = Status.idle
  ∧ classify (some ⟨3600, [], [], 0 - 301000⟩) 0 = Status.offline :=
  C4_presence_classification ⟨3600, [], [], 0⟩ 0 (by decide)

/-- Claim C5, counterexample: a reported value of minus five seconds is of
number type, so the route accepts it and the aggregate total drops from
100 to 95; NaN and positive infinity are likewise accepted and poison the
stored total. The claimed ValidationError never happens for these
inputs. -/
theorem C5_sync_validation_counterexample :
    syncHandler (SyncField.num (JSNum.finite (-5))) (some (JSNum.finite 100)) =
      (none, some (JSNum.finite 95))
  ∧ syncHandler (SyncField.num JSNum.nan) (some (JSNum.finite 100)) =
      (none, some JSNum.nan)
  ∧ syncHandler (SyncField.num JSNum.posInf) (some (JSNum.finite 100)) =
      (none, some JSNum.posInf) := by
  refine ⟨by decide, by decide, by decide⟩

/-- Claim C5 as amended: the sync route fails with its 400 validation
response exactly when totalActiveSeconds is not of number type, and no
aggregate is touched in that case; every value of number type — finite
negative values as well as NaN and the infinities — is accepted and added
onto the stored daily total. -/
theorem C5_sync_validation (field : SyncField) (total : Option JSNum) (v : JSNum)
    (t x : Int) (hnn : ∀ w, field ≠ SyncField.num w) :
    syncHandler field total = (some SyncError.invalidDataFormat, total)
  ∧ syncHandler (SyncField.num v) total = (none, applyReportedSeconds total v)
  ∧ applyReportedSeconds (some (JSNum.finite t)) (JSNum.finite x) =
      some (JSNum.finite (t + x))
  ∧ applyReportedSeconds none (JSNum.finite x) = some (JSNum.finite x) := by
  refine ⟨?_, rfl, rfl, rfl⟩
  cases field with
  | num w => exact absurd rfl (hnn w)
  | missing => rfl
  | nonNumber => rfl

/-- Witness for C5 at a missing field and a negative finite report. -/
theorem C5_sync_validation_witness :
    syncHandler SyncField.missing (some (JSNum.finite 100)) =
      (some SyncError.invalidDataFormat, some (JSNum.finite 100))
  ∧ syncHandler (SyncField.num (JSNum.finite (-5))) (some (JSNum.finite 100)) =
      (none, applyReportedSeconds (some (JSNum.finite 100)) (JSNum.finite (-5)))
  ∧ applyReportedSeconds (some (JSNum.finite 100)) (JSNum.finite (-5)) =
      some (JSNum.finite (100 + -5))
  ∧ applyReportedSeconds none (JSNum.finite (-5)) = some (JSNum.finite (-5)) :=
  C5_sync_validation SyncField.missing (some (JSNum.finite 100)) (JSNum.finite (-5))
    100 (-5) (by intro w h; cases h)

/-- Claim C9, counterexample: a merge reporting zero seconds with a
nonempty project map updates the daily aggregate but leaves the hourly
store untouched, because updateActivity only calls updateHourlyActivity
when totalSeconds is strictly positive. The claim says the identical
merge reaches the hourly bucket for zero-second merges too. -/
theorem C9_hourly_zero_counterexample :
    updateActivity none [] 0 [("app", 10)] [] 5 =
      (some ⟨0, [("app", 10)], [], 5⟩, [])
  ∧ alookup ((updateActivity none [] 0 [("app", 10)] [] 5).2) (utcHourOf 5) = none := by
  refine ⟨by decide, by decide⟩

/-- Claim C9 as amended: for every merge whose reportedSeconds is strictly
positive, the identical merge applied to the daily aggregate — the same
seconds added to the total and the same incoming maps added key-wise — is
also applied to the hourly bucket keyed by the current UTC hour at merge
time, other hourly buckets being untouched; merges whose reportedSeconds
is zero or negative update only the daily aggregate. -/
theorem C9_hourly_mirrors_daily (daily : Option DailyActivity)
    (store : List (Int × HourlyActivity)) (ts : Int) (ps ls : SMap) (now : Int)
    (k : String) (hpos : 0 < ts) (hps : (ps.map Prod.fst).Nodup)
    (hls : (ls.map Prod.fst).Nodup) :
    (updateActivity daily store ts ps ls now).1 = some (mergeDaily daily ts ps ls now)
  ∧ alookup (updateActivity daily store ts ps ls now).2 (utcHourOf now) =
      some (mergeHourly (alookup store (utcHourOf now)) ts ps ls)
  ∧ (∀ h : Int, h ≠ utcHourOf now →
      alookup (updateActivity daily store ts ps ls now).2 h = alookup store h)
  ∧ (mergeDaily daily ts ps ls now).totalSeconds = totalOf daily + ts
  ∧ (mergeHourly (alookup store (utcHourOf now)) ts ps ls).totalSeconds =
      hourlyTotalOf (alookup store (utcHourOf now)) + ts
  ∧ lookupD (mergeDaily daily ts ps ls now).projects k =
      lookupD (dailyProjectsOf daily) k + lookupD ps k
  ∧ lookupD (mergeHourly (alookup store (utcHourOf now)) ts ps ls).projects k =
      lookupD (hourlyProjectsOf (alookup store (utcHourOf now))) k + lookupD ps k
  ∧ lookupD (mergeDaily daily ts ps ls now).languages k =
      lookupD (dailyLanguagesOf daily) k + lookupD ls k
  ∧ lookupD (mergeHourly (alookup store (utcHourOf now)) ts ps ls).languages k =
      lookupD (hourlyLanguagesOf (alookup store (utcHourOf now))) k + lookupD ls k
  ∧ (∀ ts0 : Int, ts0 ≤ 0 → (updateActivity daily store ts0 ps ls now).2 = store) := by
  refine ⟨rfl, ?_, ?_, ?_, ?_, ?_, ?_, ?_, ?_, ?_⟩
  · simp [updateActivity, hpos, updateHourlyActivity, alookup_aset_self]
  · intro h hne
    simp only [updateActivity, if_pos hpos, updateHourlyActivity]
    exact alookup_aset_ne store (utcHourOf now) h _ (Ne.symm hne)
  · cases daily <;> simp [mergeDaily, totalOf]
  · cases halook : alookup store (utcHourOf now) <;>
      simp [mergeHourly, hourlyTotalOf]
  · cases daily with
    | none => simp [mergeDaily, dailyProjectsOf, lookupD, alookup]
    | some a => simpa [mergeDaily, dailyProjectsOf] using lookupD_mergeAdd ps a.projects k hps
  · cases halook : alookup store (utcHourOf now) with
    | none => simp [mergeHourly, hourlyProjectsOf, lookupD, alookup]
    | some a => simpa [mergeHourly, hourlyProjectsOf] using lookupD_mergeAdd ps a.projects k hps
  · cases daily with
    | none => simp [mergeDaily, dailyLanguagesOf, lookupD, alookup]
    | some a => simpa [mergeDaily, dailyLanguagesOf] using lookupD_mergeAdd ls a.languages k hls
  · cases halook : alookup store (utcHourOf now) with
    | none => simp [mergeHourly, hourlyLanguagesOf, lookupD, alookup]
    | some a => simpa [mergeHourly, hourlyLanguagesOf] using lookupD_mergeAdd ls a.languages k hls
  · intro ts0 hts0
    have : ¬(0 < ts0) := not_lt.mpr hts0
    simp [updateActivity, this]

/-- Witness for C9 at a one-second merge into empty stores at time 0. -/
theorem C9_hourly_mirrors_daily_witness :
    (updateActivity none [] 1 [] [] 0).1 = some (mergeDaily none 1 [] [] 0)
  ∧ alookup (updateActivity none [] 1 [] [] 0).2 (utcHourOf 0) =
      some (mergeHourly (alookup [] (utcHourOf 0)) 1 [] [])
  ∧ (∀ h : Int, h ≠ utcHourOf 0 →
      alookup (updateActivity none [] 1 [] [] 0).2 h = alookup [] h)
  ∧ (mergeDaily none 1 [] [] 0).totalSeconds = totalOf none + 1
  ∧ (mergeHourly (alookup [] (utcHourOf 0)) 1 [] []).totalSeconds =
      hourlyTotalOf (alookup [] (utcHourOf 0)) + 1
  ∧ lookupD (mergeDaily none 1 [] [] 0).projects "x" =
      lookupD (dailyProjectsOf none) "x" + lookupD [] "x"
  ∧ lookupD (mergeHourly (alookup [] (utcHourOf 0)) 1 [] []).projects "x" =
      lookupD (hourlyProjectsOf (alookup [] (utcHourOf 0))) "x" + lookupD [] "x"
  ∧ lookupD (mergeDaily none 1 [] [] 0).languages "x" =
      lookupD (dailyLanguagesOf none) "x" + lookupD [] "x"
  ∧ lookupD (mergeHourly (alookup [] (utcHourOf 0)) 1 [] []).languages "x" =
      lookupD (hourlyLanguagesOf (alookup [] (utcHourOf 0))) "x" + lookupD [] "x"
  ∧ (∀ ts0 : Int, ts0 ≤ 0 → (updateActivity none [] ts0 [] [] 0).2 = []) :=
  C9_hourly_mirrors_daily none [] 1 [] [] 0 "x" (by decide) (by simp) (by simp)

/-- Accumulator invariant of the max-seconds scan: a returned name either
was found in the scanned list, strictly above the running maximum and at
least every scanned value, or is the carried candidate with every scanned
value at most the running maximum. -/
theorem topEntryGo_spec :
    ∀ (m : List (String × Int)) (mx : Int) (cur : Option String) (p : String),
      topEntryGo m mx cur = some p →
      (∃ v, (p, v) ∈ m ∧ mx < v ∧ ∀ kv ∈ m, kv.2 ≤ v) ∨
      (cur = some p ∧ ∀ kv ∈ m, kv.2 ≤ mx)
  | [], _, _, _ => fun h => Or.inr ⟨h, by simp⟩
  | (k, v) :: rest, mx, cur, p => fun h => by
      simp only [topEntryGo] at h
      by_cases hv : mx < v
      · rw [if_pos hv] at h
        rcases topEntryGo_spec rest v (some k) p h with ⟨w, hmem, hgt, hall⟩ | ⟨hcur, hall⟩
        · refine Or.inl ⟨w, List.mem_cons_of_mem _ hmem, lt_trans hv hgt, ?_⟩
          intro kv hkv
          rcases List.mem_cons.mp hkv with heq | hmem'
          · rw [heq]; exact le_of_lt hgt
          · exact hall kv hmem'
        · have hkp : k = p := Option.some.inj hcur
          subst hkp
          refine Or.inl ⟨v, List.mem_cons_self _ _, hv, ?_⟩
          intro kv hkv
          rcases List.mem_cons.mp hkv with heq | hmem'
          · rw [heq]
          · exact hall kv hmem'
      · rw [if_neg hv] at h
        rcases topEntryGo_spec rest mx cur p h with ⟨w, hmem, hgt, hall⟩ | ⟨hcur, hall⟩
        · refine Or.inl ⟨w, List.mem_cons_of_mem _ hmem, hgt, ?_⟩
          intro kv hkv
          rcases List.mem_cons.mp hkv with heq | hmem'
          · rw [heq]; exact le_trans (not_lt.mp hv) (le_of_lt hgt)
          · exact hall kv hmem'
        · refine Or.inr ⟨hcur, ?_⟩
          intro kv hkv
          rcases List.mem_cons.mp hkv with heq | hmem'
          · rw [heq]; exact not_lt.mp hv
          · exact hall kv hmem'

/-- A surfaced name is an entry of the map, strictly positive and of
maximal seconds among all entries. -/
theorem topEntry_spec (m : SMap) (p : String) (h : topEntry m = some p) :
    ∃ v, (p, v) ∈ m ∧ 0 < v ∧ ∀ kv ∈ m, kv.2 ≤ v := by
  rcases topEntryGo_spec m 0 none p h with hgood | ⟨hc, _⟩
  · exact hgood
  · cases hc

/-- With shareActivity off, the emitted record is the blanked one. -/
theorem buildFriendView_blank (row : FriendRow) (now : Int)
    (h : row.shareActivity = false) :
    buildFriendView row now =
      ⟨row.id, row.username, row.avatarUrl, none, none, 0, 0, Status.offline⟩ := by
  simp [buildFriendView, h]

/-- With shareActivity on, the surfaced project is the top entry of the
today map whenever shareProjectName is on and a row exists. -/
theorem buildFriendView_currentProject (row : FriendRow) (now : Int)
    (h : row.shareActivity = true) :
    (buildFriendView row now).currentProject =
      (if row.shareProjectName then
        (match row.activity with | some a => topEntry a.projects | none => none)
      else none) := by
  simp [buildFriendView, h]

/-- With shareActivity on, the surfaced language is the top entry of the
today map whenever shareLanguage is on and a row exists. -/
theorem buildFriendView_currentLanguage (row : FriendRow) (now : Int)
    (h : row.shareActivity = true) :
    (buildFriendView row now).currentLanguage =
      (if row.shareLanguage then
        (match row.activity with | some a => topEntry a.languages | none => none)
      else none) := by
  simp [buildFriendView, h]

/-- Claim C6, counterexample: a friend sharing everything whose today
aggregate was last updated far in the past is classified offline, yet the
emitted record still carries the top project and language of the day. The
claim says an offline record never carries either. -/
theorem C6_feed_counterexample :
    (buildFriendView rowStale 10000000).status = Status.offline
  ∧ (buildFriendView rowStale 10000000).currentProject = some "app"
  ∧ (buildFriendView rowStale 10000000).currentLanguage = some "go" := by
  refine ⟨by decide, by decide, by decide⟩

/-- Claim C6 as amended: a record of the feed carries a project
(respectively language) name only if the friend shares activity and the
shareProjectName (respectively shareLanguage) setting is on and a today
aggregate exists — independently of the online, idle or offline status —
and when present it is an entry of the today map with strictly positive
seconds that no other entry exceeds (ties broken by first encounter). -/
theorem C6_feed_top_entries (row : FriendRow) (now : Int) :
    ((buildFriendView row now).currentProject.isSome = true →
        row.shareActivity = true ∧ row.shareProjectName = true ∧ row.activity.isSome = true)
  ∧ ((buildFriendView row now).currentLanguage.isSome = true →
        row.shareActivity = true ∧ row.shareLanguage = true ∧ row.activity.isSome = true)
  ∧ (∀ a p, row.activity = some a → (buildFriendView row now).currentProject = some p →
        ∃ v, (p, v) ∈ a.projects ∧ 0 < v ∧ ∀ kv ∈ a.projects, kv.2 ≤ v)
  ∧ (∀ a p, row.activity = some a → (buildFriendView row now).currentLanguage = some p →
        ∃ v, (p, v) ∈ a.languages ∧ 0 < v ∧ ∀ kv ∈ a.languages, kv.2 ≤ v) := by
  cases hs : row.shareActivity with
  | false =>
      rw [show (buildFriendView row now) = _ from buildFriendView_blank row now hs]
      refine ⟨by simp, by simp, by simp, by simp⟩
  | true =>
      refine ⟨?_, ?_, ?_, ?_⟩
      · rw [Option.isSome_iff_exists]
        rintro ⟨p, hp⟩
        rw [buildFriendView_currentProject row now hs] at hp
        cases hsp : row.shareProjectName with
        | false => rw [hsp] at hp; cases hp
        | true =>
            rw [hsp] at hp
            cases hact : row.activity with
            | none => rw [hact] at hp; cases hp
            | some a => exact ⟨rfl, rfl, rfl⟩
      · rw [Option.isSome_iff_exists]
        rintro ⟨p, hp⟩
        rw [buildFriendView_currentLanguage row now hs] at hp
        cases hsl : row.shareLanguage with
        | false => rw [hsl] at hp; cases hp
        | true =>
            rw [hsl] at hp
            cases hact : row.activity with
            | none => rw [hact] at hp; cases hp
            | some a => exact ⟨rfl, rfl, rfl⟩
      · intro a p hact hp
        rw [buildFriendView_currentProject row now hs, hact] at hp
        cases hsp : row.shareProjectName with
        | false => rw [hsp] at hp; cases hp
        | true => rw [hsp] at hp; exact topEntry_spec a.projects p hp
      · intro a p hact hp
        rw [buildFriendView_currentLanguage row now hs, hact] at hp
        cases hsl : row.shareLanguage with
        | false => rw [hsl] at hp; cases hp
        | true => rw [hsl] at hp; exact topEntry_spec a.languages p hp

theorem insertFeed_length (x : FriendActivityView) :
    ∀ l : List FriendActivityView, (insertFeed x l).length = l.length + 1
  | [] => rfl
  | y :: ys => by
      by_cases h : feedBefore x y
      · simp [insertFeed, h]
      · simp [insertFeed, h, insertFeed_length x ys]

theorem foldr_insertFeed_length :
    ∀ vs : List FriendActivityView, (vs.foldr insertFeed []).length = vs.length
  | [] => rfl
  | v :: vs => by
      simp [List.foldr, insertFeed_length, foldr_insertFeed_length vs]

/-- The feed lists exactly one record per friend row: sorting only
permutes. -/
theorem getFriendsActivity_length (rows : List FriendRow) (now : Int) :
    (getFriendsActivity rows now).length = rows.length := by
  simp [getFriendsActivity, foldr_insertFeed_length]

/-- Claim C7: a friend with shareActivity off is emitted as the blanked
record — offline, zero seconds, no project, no language — the record does
not depend on the recorded activity of that friend at all, and the friend
stays listed rather than omitted. -/
theorem C7_share_activity_off_blanks (row : FriendRow) (now : Int)
    (act1 act2 : Option DailyActivity) (rows : List FriendRow)
    (h : row.shareActivity = false) :
    buildFriendView row now =
      ⟨row.id, row.username, row.avatarUrl, none, none, 0, 0, Status.offline⟩
  ∧ buildFriendView { row with activity := act1 } now =
      buildFriendView { row with activity := act2 } now
  ∧ getFriendsActivity [row] now =
      [⟨row.id, row.username, row.avatarUrl, none, none, 0, 0, Status.offline⟩]
  ∧ (getFriendsActivity rows now).length = rows.length := by
  have h1 := buildFriendView_blank row now h
  refine ⟨h1, ?_, ?_, getFriendsActivity_length rows now⟩
  · exact (buildFriendView_blank { row with activity := act1 } now h).trans
      (buildFriendView_blank { row with activity := act2 } now h).symm
  · simp [getFriendsActivity, insertFeed, h1]

/-- Witness for C7: a non-sharing friend with heavy same-day activity
recorded internally yields the same blanked record as with none. -/
theorem C7_share_activity_off_blanks_witness :
    buildFriendView ⟨"f1", "bob", none, false, true, true, none⟩ 5 =
      ⟨"f1", "bob", none, none, none, 0, 0, Status.offline⟩
  ∧ buildFriendView ⟨"f1", "bob", none, false, true, true, none⟩ 5 =
      buildFriendView ⟨"f1", "bob", none, false, true, true,
        some ⟨999999, [("secret", 999999)], [("go", 999999)], 5⟩⟩ 5
  ∧ getFriendsActivity [⟨"f1", "bob", none, false, true, true, none⟩] 5 =
      [⟨"f1", "bob", none, none, none, 0, 0, Status.offline⟩]
  ∧ (getFriendsActivity [] 5).length = ([] : List FriendRow).length :=
  C7_share_activity_off_blanks ⟨"f1", "bob", none, false, true, true, none⟩ 5
    none (some ⟨999999, [("secret", 999999)], [("go", 999999)], 5⟩) [] rfl

theorem insertEdge_mem (es : List (String × String)) (e x : String × String) :
    x ∈ insertEdge es e ↔ x ∈ es ∨ x = e := by
  unfold insertEdge
  by_cases h : e ∈ es
  · simp only [if_pos h]
    constructor
    · exact Or.inl
    · rintro (hx | rfl)
      · exact hx
      · exact h
  · simp only [if_neg h, List.mem_cons]
    tauto

theorem graphInv_send {s s' : FriendState} {f t rid : String} {now : Int}
    (hinv : GraphInv s) (h : sendFriendRequest s f t rid now = Except.ok s') :
    GraphInv s' := by
  unfold sendFriendRequest at h
  split_ifs at h with h1 h2 h3 h4
  rw [Except.ok.injEq] at h
  subst h
  refine ⟨hinv.1, hinv.2.1, ?_⟩
  intro r hr
  rcases List.mem_append.mp hr with hold | hnew
  · exact hinv.2.2 r hold
  · rcases List.mem_singleton.mp hnew with rfl
    exact h1

theorem graphInv_accept {s s' : FriendState} {rid uid : String} {now : Int}
    (hinv : GraphInv s) (h : acceptFriendRequest s rid uid now = Except.ok s') :
    GraphInv s' := by
  unfold acceptFriendRequest at h
  cases hfind : s.requests.find? (fun r => decide (r.id = rid)) with
  | none =>
      rw [hfind] at h
      exact Except.noConfusion h
  | some req =>
      rw [hfind] at h
      dsimp only at h
      split_ifs at h with h1 h2
      rw [Except.ok.injEq] at h
      subst h
      have hreq_mem : req ∈ s.requests := List.mem_of_find?_eq_some hfind
      have hft : req.fromUserId ≠ req.toUserId := hinv.2.2 req hreq_mem
      refine ⟨?_, ?_, ?_⟩
      · intro a b
        simp only [insertEdge_mem, Prod.mk.injEq]
        rw [hinv.1 a b]
        tauto
      · intro a
        simp only [insertEdge_mem, Prod.mk.injEq]
        rintro ((hmem | ⟨ha1, ha2⟩) | ⟨ha1, ha2⟩)
        · exact hinv.2.1 a hmem
        · exact hft (ha1.symm.trans ha2)
        · exact hft (ha2.symm.trans ha1)
      · intro r hr
        rcases List.mem_map.mp hr with ⟨r0, hr0, hr0eq⟩
        have : r.fromUserId = r0.fromUserId ∧ r.toUserId = r0.toUserId := by
          by_cases hc : r0.id = rid <;> simp [← hr0eq, hc]
        rw [this.1, this.2]
        exact hinv.2.2 r0 hr0

theorem graphInv_reject {s s' : FriendState} {rid uid : String} {now : Int}
    (hinv : GraphInv s) (h : rejectFriendRequest s rid uid now = Except.ok s') :
    GraphInv s' := by
  unfold rejectFriendRequest at h
  cases hfind : s.requests.find? (fun r => decide (r.id = rid)) with
  | none =>
      rw [hfind] at h
      exact Except.noConfusion h
  | some req =>
      rw [hfind] at h
      dsimp only at h
      split_ifs at h with h1
      rw [Except.ok.injEq] at h
      subst h
      refine ⟨hinv.1, hinv.2.1, ?_⟩
      intro r hr
      rcases List.mem_map.mp hr with ⟨r0, hr0, hr0eq⟩
      have : r.fromUserId = r0.fromUserId ∧ r.toUserId = r0.toUserId := by
        by_cases hc : r0.id = rid <;> simp [← hr0eq, hc]
      rw [this.1, this.2]
      exact hinv.2.2 r0 hr0

theorem graphInv_remove {s : FriendState} (u f : String) (hinv : GraphInv s) :
    GraphInv (removeFriend s u f) := by
  unfold removeFriend
  refine ⟨?_, ?_, hinv.2.2⟩
  · intro a b
    simp only [List.mem_filter, decide_eq_true_eq, Prod.mk.injEq]
    rw [hinv.1 a b]
    tauto
  · intro a
    simp only [List.mem_filter, decide_eq_true_eq]
    rintro ⟨hmem, _⟩
    exact hinv.2.1 a hmem

/-- Every reachable state of the friendship graph satisfies the symmetry,
no-self-edge and distinct-endpoints invariants. -/
theorem reachable_graphInv (s : FriendState) (h : Reachable s) : GraphInv s := by
  induction h with
  | init => exact ⟨by simp, by simp, by simp⟩
  | send _ hok ih => exact graphInv_send ih hok
  | accept _ hok ih => exact graphInv_accept ih hok
  | reject _ hok ih => exact graphInv_reject ih hok
  | remove _ ih => exact graphInv_remove _ _ ih

/-- A successful accept found a pending request addressed to the acting
user and created both directed edges. -/
theorem accept_creates_edges (s : FriendState) (rid uid : String) (now : Int)
    (s' : FriendState) (h : acceptFriendRequest s rid uid now = Except.ok s') :
    ∃ r, s.requests.find? (fun x => decide (x.id = rid)) = some r ∧
      r.status = ReqStatus.pending ∧ r.toUserId = uid ∧
      (r.fromUserId, r.toUserId) ∈ s'.friendships ∧
      (r.toUserId, r.fromUserId) ∈ s'.friendships := by
  unfold acceptFriendRequest at h
  cases hfind : s.requests.find? (fun r => decide (r.id = rid)) with
  | none =>
      rw [hfind] at h
      exact Except.noConfusion h
  | some req =>
      rw [hfind] at h
      dsimp only at h
      split_ifs at h with h1 h2
      rw [Except.ok.injEq] at h
      subst h
      refine ⟨req, rfl, not_ne_iff.mp h2, not_ne_iff.mp h1, ?_, ?_⟩
      · rw [insertEdge_mem, insertEdge_mem]
        exact Or.inl (Or.inr rfl)
      · rw [insertEdge_mem]
        exact Or.inr rfl

/-- removeFriend removes both directions and is a no-op, not an error,
when neither direction exists. -/
theorem remove_kills_edges (s : FriendState) (a b : String) :
    (a, b) ∉ (removeFriend s a b).friendships
  ∧ (b, a) ∉ (removeFriend s a b).friendships
  ∧ ((a, b) ∉ s.friendships ∧ (b, a) ∉ s.friendships → removeFriend s a b = s) := by
  unfold removeFriend
  refine ⟨?_, ?_, ?_⟩
  · intro hmem
    rcases List.mem_filter.mp hmem with ⟨_, hp⟩
    rw [decide_eq_true_eq] at hp
    exact hp (Or.inl rfl)
  · intro hmem
    rcases List.mem_filter.mp hmem with ⟨_, hp⟩
    rw [decide_eq_true_eq] at hp
    exact hp (Or.inr rfl)
  · rintro ⟨hab, hba⟩
    have : s.friendships.filter (fun e =>
        decide (¬(e = (a, b) ∨ e = (b, a)))) = s.friendships := by
      rw [List.filter_eq_self]
      intro e he
      rw [decide_eq_true_eq]
      rintro (rfl | rfl)
      · exact hab he
      · exact hba he
    rw [this]

/-- Claim C2: in every reachable state the friendship relation is
symmetric and has no self-edges; a successful accept of a pending request
creates both directed edges; removeFriend removes both directions, and
removing a non-existent friendship is not an error but a no-op. -/
theorem C2_friend_edge_symmetry (s : FriendState) (hs : Reachable s)
    (a b rid uid : String) (now : Int) :
    ((a, b) ∈ s.friendships ↔ (b, a) ∈ s.friendships)
  ∧ ((a, a) ∉ s.friendships)
  ∧ (∀ s', acceptFriendRequest s rid uid now = Except.ok s' →
      ∃ r, s.requests.find? (fun x => decide (x.id = rid)) = some r ∧
        r.status = ReqStatus.pending ∧ r.toUserId = uid ∧
        (r.fromUserId, r.toUserId) ∈ s'.friendships ∧
        (r.toUserId, r.fromUserId) ∈ s'.friendships)
  ∧ ((a, b) ∉ (removeFriend s a b).friendships ∧
     (b, a) ∉ (removeFriend s a b).friendships)
  ∧ ((a, b) ∉ s.friendships ∧ (b, a) ∉ s.friendships → removeFriend s a b = s) := by
  have hinv := reachable_graphInv s hs
  exact ⟨hinv.1 a b, hinv.2.1 a,
    fun s' h => accept_creates_edges s rid uid now s' h,
    ⟨(remove_kills_edges s a b).1, (remove_kills_edges s a b).2.1⟩,
    (remove_kills_edges s a b).2.2⟩

/-- Witness for C2 at the empty initial state. -/
theorem C2_friend_edge_symmetry_witness :
    (("A", "B") ∈ (FriendState.mk [] []).friendships ↔
       ("B", "A") ∈ (FriendState.mk [] []).friendships)
  ∧ (("A", "A") ∉ (FriendState.mk [] []).friendships)
  ∧ (∀ s', acceptFriendRequest (FriendState.mk [] []) "r" "B" 0 = Except.ok s' →
      ∃ r, (FriendState.mk [] []).requests.find? (fun x => decide (x.id = "r")) = some r ∧
        r.status = ReqStatus.pending ∧ r.toUserId = "B" ∧
        (r.fromUserId, r.toUserId) ∈ s'.friendships ∧
        (r.toUserId, r.fromUserId) ∈ s'.friendships)
  ∧ (("A", "B") ∉ (removeFriend (FriendState.mk [] []) "A" "B").friendships ∧
     ("B", "A") ∉ (removeFriend (FriendState.mk [] []) "A" "B").friendships)
  ∧ (("A", "B") ∉ (FriendState.mk [] []).friendships ∧
     ("B", "A") ∉ (FriendState.mk [] []).friendships →
       removeFriend (FriendState.mk [] []) "A" "B" = FriendState.mk [] []) :=
  C2_friend_edge_symmetry ⟨[], []⟩ Reachable.init "A" "B" "r" "B" 0

/-- Witness for C6 at the stale sharing row. -/
theorem C6_feed_top_entries_witness :
    ((buildFriendView rowStale 10000000).currentProject.isSome = true →
        rowStale.shareActivity = true ∧ rowStale.shareProjectName = true ∧
        rowStale.activity.isSome = true)
  ∧ ((buildFriendView rowStale 10000000).currentLanguage.isSome = true →
        rowStale.shareActivity = true ∧ rowStale.shareLanguage = true ∧
        rowStale.activity.isSome = true)
  ∧ (∀ a p, rowStale.activity = some a →
        (buildFriendView rowStale 10000000).currentProject = some p →
        ∃ v, (p, v) ∈ a.projects ∧ 0 < v ∧ ∀ kv ∈ a.projects, kv.2 ≤ v)
  ∧ (∀ a p, rowStale.activity = some a →
        (buildFriendView rowStale 10000000).currentLanguage = some p →
        ∃ v, (p, v) ∈ a.languages ∧ 0 < v ∧ ∀ kv ∈ a.languages, kv.2 ≤ v) :=
  C6_feed_top_entries rowStale 10000000

/-- Claim C3, evaluation at the failing input: on a request that is
already accepted, accept fails with the conflict error as claimed, but
reject succeeds, moves the terminal status accepted to rejected and
overwrites respondedAt — the source guard on pending status is present in
acceptFriendRequest and missing in rejectFriendRequest. -/
theorem C3_reject_ignores_terminal_status :
    acceptFriendRequest stateAccepted "r1" "B" 200 = Except.error DbError.conflict
  ∧ rejectFriendRequest stateAccepted "r1" "B" 200 =
      Except.ok ⟨[⟨"r1", "A", "B", ReqStatus.rejected, 10, some 200⟩],
        [("A", "B"), ("B", "A")]⟩ := by
  refine ⟨rfl, rfl⟩

theorem checkLoop_notIn (u : UserInfo) (d : ActivityData) :
    ∀ (catalog : List Achievement) (unlocked : List String) (a : Achievement),
      a ∈ checkLoop u d catalog unlocked → a.id ∉ unlocked
  | [], _, a => by simp [checkLoop]
  | b :: rest, unlocked, a => by
      intro hmem
      simp only [checkLoop] at hmem
      by_cases hb : b.id ∈ unlocked
      · rw [if_pos hb] at hmem
        exact checkLoop_notIn u d rest unlocked a hmem
      · rw [if_neg hb] at hmem
        by_cases he : earned u d b = true
        · rw [if_pos he] at hmem
          rcases List.mem_cons.mp hmem with rfl | hmem'
          · exact hb
          · exact checkLoop_notIn u d rest unlocked a hmem'
        · rw [if_neg he] at hmem
          exact checkLoop_notIn u d rest unlocked a hmem

theorem checkLoop_empty (u : UserInfo) (d : ActivityData) :
    ∀ (catalog : List Achievement) (u2 : List String),
      (∀ a ∈ catalog, earned u d a = true → a.id ∈ u2) →
      checkLoop u d catalog u2 = []
  | [], _, _ => rfl
  | b :: rest, u2, hall => by
      simp only [checkLoop]
      by_cases hb : b.id ∈ u2
      · rw [if_pos hb]
        exact checkLoop_empty u d rest u2
          (fun a ha => hall a (List.mem_cons_of_mem _ ha))
      · rw [if_neg hb]
        by_cases he : earned u d b = true
        · exact absurd (hall b (List.mem_cons_self _ _) he) hb
        · rw [if_neg he]
          exact checkLoop_empty u d rest u2
            (fun a ha => hall a (List.mem_cons_of_mem _ ha))

theorem checkLoop_earned_mem (u : UserInfo) (d : ActivityData) :
    ∀ (catalog : List Achievement) (unlocked : List String) (a : Achievement),
      a ∈ catalog → earned u d a = true → a.id ∉ unlocked →
      a.id ∈ (checkLoop u d catalog unlocked).map Achievement.id
  | [], _, a => by simp
  | b :: rest, unlocked, a => by
      intro hmem hearn hnot
      rcases List.mem_cons.mp hmem with rfl | hrest
      · simp only [checkLoop]
        rw [if_neg hnot, if_pos hearn]
        simp
      · simp only [checkLoop]
        by_cases hb : b.id ∈ unlocked
        · rw [if_pos hb]
          exact checkLoop_earned_mem u d rest unlocked a hrest hearn hnot
        · rw [if_neg hb]
          by_cases he : earned u d b = true
          · rw [if_pos he]
            simp only [List.map_cons, List.mem_cons]
            exact Or.inr (checkLoop_earned_mem u d rest unlocked a hrest hearn hnot)
          · rw [if_neg he]
            exact checkLoop_earned_mem u d rest unlocked a hrest hearn hnot

/-- Claim C8: evaluation never re-emits an achievement whose id is already
in the unlock set, and a second evaluation run immediately after the
first one, with the same activity, friends and catalog, emits nothing. -/
theorem C8_achievements_idempotent (user : Option UserInfo) (d : ActivityData)
    (catalog : List Achievement) (unlocked : List String) :
    (∀ a ∈ checkAndUnlockAchievements user d catalog unlocked, a.id ∉ unlocked)
  ∧ checkAndUnlockAchievements user d catalog
      ((runEvaluate user d catalog unlocked).2) = [] := by
  cases user with
  | none => exact ⟨by simp [checkAndUnlockAchievements], rfl⟩
  | some u =>
      refine ⟨fun a ha => checkLoop_notIn u d catalog unlocked a ha, ?_⟩
      show checkLoop u d catalog
        (unlocked ++ (checkLoop u d catalog unlocked).map Achievement.id) = []
      apply checkLoop_empty
      intro a ha hearn
      rw [List.mem_append]
      by_cases hid : a.id ∈ unlocked
      · exact Or.inl hid
      · exact Or.inr (checkLoop_earned_mem u d catalog unlocked a ha hearn hid)

/-- Witness for C8 at a one-achievement catalog that the user earns. -/
theorem C8_achievements_idempotent_witness :
    (∀ a ∈ checkAndUnlockAchievements (some ⟨["x"]⟩) ⟨[], [], 0⟩
        [⟨"friend_1", "First Friend", "social", "friend_count", 1⟩] [],
      a.id ∉ ([] : List String))
  ∧ checkAndUnlockAchievements (some ⟨["x"]⟩) ⟨[], [], 0⟩
      [⟨"friend_1", "First Friend", "social", "friend_count", 1⟩]
      ((runEvaluate (some ⟨["x"]⟩) ⟨[], [], 0⟩
        [⟨"friend_1", "First Friend", "social", "friend_count", 1⟩] []).2) = [] :=
  C8_achievements_idempotent (some ⟨["x"]⟩) ⟨[], [], 0⟩
    [⟨"friend_1", "First Friend", "social", "friend_count", 1⟩] []

/-- Claim C10: an id that resolves to no user row makes the evaluator
return the empty list without error and insert no unlock record. -/
theorem C10_unknown_user_noop (users : List (String × UserInfo)) (userId : String)
    (d : ActivityData) (catalog : List Achievement) (unlocked : List String)
    (h : getUserById users userId = none) :
    checkAndUnlockAchievements (getUserById users userId) d catalog unlocked = []
  ∧ (runEvaluate (getUserById users userId) d catalog unlocked).2 = unlocked := by
  rw [h]
  exact ⟨rfl, by simp [runEvaluate, checkAndUnlockAchievements]⟩

/-- Witness for C10 at an empty users table. -/
theorem C10_unknown_user_noop_witness :
    checkAndUnlockAchievements (getUserById [] "ghost") ⟨[], [], 0⟩ [] [] = []
  ∧ (runEvaluate (getUserById [] "ghost") ⟨[], [], 0⟩ [] []).2 = [] :=
  C10_unknown_user_noop [] "ghost" ⟨[], [], 0⟩ [] [] rfl

end DevSocial
